import Mathlib

/-!
Shallow embedding of the zero-paste CLI (src/main.rs): the filename-to-language
classifier, the static allow-lists, the expiry wire-token mapping, and the
two-request upload flow (modelled over explicit oracles for file contents and
the GET response document), together with theorems settling the spec claims.
-/

/-- Embeds the constant BASE_URL. -/
def BASE_URL : String := "https://paste.mozilla.org/"

/-- Embeds the constant SUPPORTED_LANG (63 entries, in source order). -/
def SUPPORTED_LANG : List String :=
  ["_text", "_markdown", "_rst", "_code", "applescript", "arduino", "bash", "bat", "c",
   "clojure", "cmake", "coffee-script", "common-lisp", "console", "cpp", "csharp", "css",
   "cuda", "dart", "delphi", "diff", "django", "dker", "elixir", "erlang", "go",
   "handlebars", "haskell", "html", "html+django", "ini", "ipythonconsole", "irc",
   "java", "js", "json", "jsx", "kotlin", "less", "lua", "make", "matlab", "nginx",
   "numpy", "objective-c", "perl", "php", "postgresql", "python", "rb", "rst", "rust",
   "sass", "scss", "sol", "sql", "swift", "tex", "typoscript", "vim", "xml", "xslt",
   "yaml"]

/-- Embeds the constant SUPPORTED_EXPIRE. -/
def SUPPORTED_EXPIRE : List String := ["once", "1h", "1d", "1w", "21d"]

/-- The fixed wire-token list for the expires form field, as given by the
wire-protocol table (the right-hand sides of the match in upload_file). -/
def WIRE_TOKENS : List String := ["onetime", "3600", "86400", "604800", "2073600"]

/-- Embeds Rust str::to_lowercase: per-character lowercasing (full fidelity on
ASCII names, which is all the matching in this program distinguishes). Written
over the character list so it evaluates in the kernel. -/
def toLowerStr (s : String) : String := String.mk (s.data.map Char.toLower)

/-- Whether the character list p occurs at the start of s (helper for
substring containment). -/
def startsWithChars : List Char → List Char → Bool
  | [], _ => true
  | _ :: _, [] => false
  | a :: as, b :: bs => a == b && startsWithChars as bs

/-- Whether the character list p occurs anywhere inside s. -/
def hasSubstr : List Char → List Char → Bool
  | p, [] => p.isEmpty
  | p, s@(_ :: rest) => startsWithChars p s || hasSubstr p rest

/-- Embeds Rust str::contains with a string pattern: substring containment.
For an ASCII pattern (the only use here is "nginx") byte-level and
character-level containment coincide. -/
def strContains (s pat : String) : Bool := hasSubstr pat.data s.data

/-- The character class of the extension regex: [a-zA-Z0-9+_-]. -/
def extCharOk (c : Char) : Bool :=
  c.isAlpha || c.isDigit || c == '+' || c == '_' || c == '-'

/-- Embeds the regex capture of map_filename_to_lang. The regex
\.([a-zA-Z0-9+_-]+)$ matches exactly when everything after the last dot of s
is a nonempty run of class characters (a match at any earlier dot would have
to span a later dot, which is outside the class), and then captures that run.
So: take the maximal trailing run of class characters; the capture succeeds
iff that run is nonempty and is immediately preceded by a dot. -/
def extractExt (s : String) : Option String :=
  let rev := s.data.reverse
  let extRev := rev.takeWhile extCharOk
  match rev.drop extRev.length with
  | '.' :: _ => if extRev.isEmpty then none else some (String.mk extRev.reverse)
  | _ => none

/-- Embeds the extension-to-language match of map_filename_to_lang. -/
def extTable (ext : String) : Option String :=
  match ext with
  | "txt" => some "_text"
  | "md" => some "_markdown"
  | "rst" => some "_rst"
  | "sh" => some "bash"
  | "bat" => some "bat"
  | "c" => some "c"
  | "lisp" | "lsp" | "cl" => some "common-lisp"
  | "cpp" | "cc" | "cxx" | "hpp" | "hxx" | "inc" | "hh" | "h" => some "cpp"
  | "cs" => some "csharp"
  | "cmake" | "in" => some "cmake"
  | "css" => some "css"
  | "dart" => some "dart"
  | "patch" | "diff" => some "diff"
  | "elixir" | "ex" | "exs" => some "elixir"
  | "erl" => some "erlang"
  | "go" => some "go"
  | "hbs" => some "handlebars"
  | "hs" => some "haskell"
  | "html" | "htm" | "shtm" | "shtml" => some "html"
  | "ini" => some "ini"
  | "java" => some "java"
  | "js" | "ts" => some "js"
  | "json" | "jsonl" => some "json"
  | "tsx" | "jsx" => some "jsx"
  | "kt" | "kts" => some "kotlin"
  | "lua" => some "lua"
  | "m" | "mm" => some "objective-c"
  | "pl" => some "perl"
  | "php" => some "php"
  | "py" => some "python"
  | "rb" => some "rb"
  | "rs" => some "rust"
  | "sass" => some "sass"
  | "scss" => some "scss"
  | "sol" => some "sol"
  | "sql" => some "sql"
  | "swift" => some "swift"
  | "tex" => some "tex"
  | "typoscript" => some "typoscript"
  | "vim" => some "vim"
  | "xml" => some "xml"
  | "xsl" | "xslt" => some "xslt"
  | "yml" | "yaml" => some "yaml"
  | _ => none

/-- Embeds the special_cases match of map_filename_to_lang, applied to the
already-lowercased name. -/
def special_cases (file_lower : String) : Option String :=
  if file_lower = "dockerfile" then some "docker"
  else if file_lower = "makefile" then some "make"
  else if file_lower = "cmakelists.txt" then some "cmake"
  else if file_lower = "nginx.conf" then some "nginx"
  else if strContains file_lower "nginx" then some "nginx"
  else none

/-- Embeds map_filename_to_lang: lowercase the name, try the special cases,
otherwise extract the extension with the regex and look it up in the table. -/
def map_filename_to_lang (file : String) : Option String :=
  let file_lower := toLowerStr file
  match special_cases file_lower with
  | some l => some l
  | none =>
    match extractExt file_lower with
    | some ext => extTable ext
    | none => none

/-- Splitting a character list on a separator character (semantics of
String.splitOn for a one-character separator, written so it evaluates in the
kernel). -/
def splitOnChar (sep : Char) : List Char → List (List Char)
  | [] => [[]]
  | c :: cs =>
    let rest := splitOnChar sep cs
    if c == sep then [] :: rest
    else
      match rest with
      | r :: rs => (c :: r) :: rs
      | [] => [[c]]

/-- Embeds std::path::Path::file_name (composed with to_str, which is the
identity on valid UTF-8) for Unix-style paths: the last normal component of
the path (empty and current-directory components are not components); none
when the path is empty, a root, or ends in a parent-directory component. -/
def fileName (path : String) : Option String :=
  let comps :=
    ((splitOnChar '/' path.data).map String.mk).filter (fun c => c ≠ "" && c ≠ ".")
  match comps.getLast? with
  | some c => if c = ".." then none else some c
  | none => none

/-- Embeds the expires match of upload_file (the expiry-code to wire-token
mapping, with the default arm mapping everything else to onetime). -/
def expiresToken (time : String) : String :=
  match time with
  | "once" => "onetime"
  | "1h" => "3600"
  | "1d" => "86400"
  | "1w" => "604800"
  | "21d" => "2073600"
  | _ => "onetime"

/-- Instrumented copy of the expires match: the boolean records whether the
default (wildcard) arm was the one taken. -/
def expiresTokenD (time : String) : String × Bool :=
  match time with
  | "once" => ("onetime", false)
  | "1h" => ("3600", false)
  | "1d" => ("86400", false)
  | "1w" => ("604800", false)
  | "21d" => ("2073600", false)
  | _ => ("onetime", true)

/-- An HTML element of the parsed GET response: tag name plus attributes, the
abstraction of the dom_query document that upload_file queries. -/
structure Element where
  tag : String
  attrs : List (String × String)

/-- The value of the named attribute of an element (first occurrence). -/
def attrOf (e : Element) (a : String) : Option String :=
  (e.attrs.find? (fun p => p.1 == a)).map (fun p => p.2)

/-- Embeds document.select("input[name=csrfmiddlewaretoken]").attr("value"):
the value attribute of the first input element whose name attribute is
csrfmiddlewaretoken, if any. -/
def selectCsrfValue (doc : List Element) : Option String :=
  (doc.find? (fun e => e.tag == "input" && attrOf e "name" == some "csrfmiddlewaretoken")).bind
    (fun e => attrOf e "value")

/-- A network request issued by upload_file. The POST form is kept as an
association list standing for the Rust HashMap (claims query it by key). -/
inductive NetReq where
  | get (url : String)
  | post (url : String) (form : List (String × String))

/-- A line printed by main or upload_file, kept structured: each constructor
carries the data the corresponding println calls interpolate. -/
inductive OutEvent where
  | unsupportedExpire (t : String) (supported : List String)
  | unsupportedLang (l : String) (supported : List String)
  | usage
  | pasteUrl (u : String)

/-- How one invocation of upload_file (or main) ended. panicTokenMissing
stands for the .unwrap() panic when no anti-forgery token is found. -/
inductive UploadEnd where
  | earlyReturn
  | ioError
  | panicTokenMissing
  | success (form : List (String × String))

/-- Observable effects of one run: the network requests issued (in order),
the printed output, and how the run ended. -/
structure RunResult where
  requests : List NetReq
  outputs : List OutEvent
  outcome : UploadEnd

/-- Embeds upload_file. Effects are made explicit: content is the result of
fs::read_to_string (none = I/O error), doc is the parsed HTML of the GET
response, finalUrl is the URL the POST response resolves to after redirects.
Steps in source order: expiry allow-list check, file read, language
derivation with the _code fallback, GET, token extraction (panic when
absent), form construction, POST. -/
def upload_file (file time : String) (lang : Option String)
    (content : Option String) (doc : List Element) (finalUrl : String) : RunResult :=
  if !SUPPORTED_EXPIRE.contains time then
    { requests := [], outputs := [.unsupportedExpire time SUPPORTED_EXPIRE],
      outcome := .earlyReturn }
  else
    match content with
    | none => { requests := [], outputs := [], outcome := .ioError }
    | some fileContent =>
      let lang := (lang <|> ((fileName file).bind map_filename_to_lang)).getD "_code"
      match selectCsrfValue doc with
      | none =>
        { requests := [.get BASE_URL], outputs := [], outcome := .panicTokenMissing }
      | some token =>
        let form : List (String × String) :=
          [("csrfmiddlewaretoken", token), ("content", fileContent),
           ("expires", expiresToken time), ("lexer", lang), ("title", "")]
        { requests := [.get BASE_URL, .post BASE_URL form],
          outputs := [.pasteUrl finalUrl], outcome := .success form }

/-- Embeds main: dispatch on the argument vector (program name included),
with the language allow-list check guarding the explicit-language form.
The oracles content, doc and finalUrl are passed through to upload_file. -/
def mainRun (args : List String) (content : Option String)
    (doc : List Element) (finalUrl : String) : RunResult :=
  match args with
  | [_, file, time, lang] =>
    if !SUPPORTED_LANG.contains lang then
      { requests := [], outputs := [.unsupportedLang lang SUPPORTED_LANG],
        outcome := .earlyReturn }
    else upload_file file time (some lang) content doc finalUrl
  | [_, file, time] => upload_file file time none content doc finalUrl
  | [_, file] => upload_file file "once" none content doc finalUrl
  | _ => { requests := [], outputs := [.usage], outcome := .earlyReturn }



/-- C1: the claim says every tag that map_filename_to_lang emits lies in the
63-value SUPPORTED_LANG set. The code breaks this at the input Dockerfile:
the classifier emits "docker", while SUPPORTED_LANG lists "dker" and does not
contain "docker" - the classifier and the program's own allow-list contradict
each other. -/
theorem classifier_emits_docker_outside_supported :
    map_filename_to_lang "Dockerfile" = some "docker" ∧
    SUPPORTED_LANG.contains "docker" = false := by decide

/-- C4: the expiry mapping sends once to onetime, 1h to 3600, 1d to 86400,
1w to 604800 and 21d to 2073600, and on the whole closed five-value set its
output is always a member of the fixed wire-token list. (Totality and
determinism hold by construction: expiresToken is a function.) -/
theorem expiry_mapping_matches_wire_table :
    expiresToken "once" = "onetime" ∧ expiresToken "1h" = "3600" ∧
    expiresToken "1d" = "86400" ∧ expiresToken "1w" = "604800" ∧
    expiresToken "21d" = "2073600" ∧
    SUPPORTED_EXPIRE.all (fun t => WIRE_TOKENS.contains (expiresToken t)) = true := by
  decide

/-- C10: the expires mapping is total over all strings - every string outside
the five supported codes is sent to onetime by the default arm - and on every
member of the validated set SUPPORTED_EXPIRE the default arm is never the one
taken (it is unreachable after allow-list validation). -/
theorem expires_default_total_and_unreachable :
    (∀ t, (expiresTokenD t).1 = expiresToken t) ∧
    (∀ t, SUPPORTED_EXPIRE.contains t = false → expiresToken t = "onetime") ∧
    SUPPORTED_EXPIRE.all (fun t => !(expiresTokenD t).2) = true := by
  refine ⟨?_, ?_, by decide⟩
  · intro t
    unfold expiresTokenD expiresToken
    split <;> rfl
  · intro t h
    unfold expiresToken
    split <;> simp_all [SUPPORTED_EXPIRE]

/-- Witness for C10 at concrete inputs: "2h" is outside the allow-list and is
sent to onetime, and the instrumented mapping agrees with the plain one. -/
theorem expires_default_total_and_unreachable_witness :
    (expiresTokenD "2h").1 = expiresToken "2h" ∧
    expiresToken "2h" = "onetime" ∧
    SUPPORTED_EXPIRE.all (fun t => !(expiresTokenD t).2) = true :=
  ⟨expires_default_total_and_unreachable.1 "2h",
   expires_default_total_and_unreachable.2.1 "2h" (by decide),
   expires_default_total_and_unreachable.2.2⟩

/-- C5: an expiry argument outside the five-value allow-list makes
upload_file return before any network request, printing only the offending
value together with the accepted set; an explicit language argument outside
the 63-value allow-list makes main return before calling upload_file at all,
again printing only the offending value together with the accepted set. -/
theorem validation_aborts_before_network :
    (∀ file time lang content doc finalUrl,
      SUPPORTED_EXPIRE.contains time = false →
      (upload_file file time lang content doc finalUrl).requests = [] ∧
      (upload_file file time lang content doc finalUrl).outputs =
        [OutEvent.unsupportedExpire time SUPPORTED_EXPIRE]) ∧
    (∀ prog file time lang content doc finalUrl,
      SUPPORTED_LANG.contains lang = false →
      (mainRun [prog, file, time, lang] content doc finalUrl).requests = [] ∧
      (mainRun [prog, file, time, lang] content doc finalUrl).outputs =
        [OutEvent.unsupportedLang lang SUPPORTED_LANG]) := by
  constructor
  · intro file time lang content doc finalUrl h
    have h' : time ∉ SUPPORTED_EXPIRE := by simpa using h
    constructor <;> simp [upload_file, h']
  · intro prog file time lang content doc finalUrl h
    have h' : lang ∉ SUPPORTED_LANG := by simpa using h
    constructor <;> simp [mainRun, h']

/-- Witness for C5: the unsupported expiry "2h" and the unsupported language
"rusty" each abort with no requests and exactly the validation message. -/
theorem validation_aborts_before_network_witness :
    SUPPORTED_EXPIRE.contains "2h" = false ∧
    (upload_file "a.rs" "2h" none (some "x") [] "u").requests = [] ∧
    (upload_file "a.rs" "2h" none (some "x") [] "u").outputs =
      [OutEvent.unsupportedExpire "2h" SUPPORTED_EXPIRE] ∧
    SUPPORTED_LANG.contains "rusty" = false ∧
    (mainRun ["paste", "a.rs", "once", "rusty"] (some "x") [] "u").requests = [] ∧
    (mainRun ["paste", "a.rs", "once", "rusty"] (some "x") [] "u").outputs =
      [OutEvent.unsupportedLang "rusty" SUPPORTED_LANG] := by
  have h1 := validation_aborts_before_network.1 "a.rs" "2h" none (some "x") [] "u" (by decide)
  have h2 :=
    validation_aborts_before_network.2 "paste" "a.rs" "once" "rusty" (some "x") [] "u" (by decide)
  exact ⟨by decide, h1.1, h1.2, by decide, h2.1, h2.2⟩

/-- C2: when the GET response document contains no input element whose name
attribute is csrfmiddlewaretoken, upload_file (reached with a valid expiry
and readable content) ends in the token-missing failure and its request
trace is the single GET - no POST is ever issued. -/
theorem token_missing_fails_without_post
    (file time : String) (lang : Option String) (c : String)
    (doc : List Element) (finalUrl : String)
    (hv : SUPPORTED_EXPIRE.contains time = true)
    (hd : ∀ e ∈ doc, ¬(e.tag = "input" ∧ attrOf e "name" = some "csrfmiddlewaretoken")) :
    (upload_file file time lang (some c) doc finalUrl).outcome =
      UploadEnd.panicTokenMissing ∧
    (upload_file file time lang (some c) doc finalUrl).requests =
      [NetReq.get BASE_URL] := by
  have hsel : selectCsrfValue doc = none := by
    unfold selectCsrfValue
    have hfind :
        doc.find?
          (fun e => e.tag == "input" && attrOf e "name" == some "csrfmiddlewaretoken") =
          none := by
      rw [List.find?_eq_none]
      intro e he
      have h := hd e he
      simp only [Bool.and_eq_true, beq_iff_eq]
      tauto
    rw [hfind]
    rfl
  have hv' : time ∈ SUPPORTED_EXPIRE := by simpa using hv
  constructor <;> simp [upload_file, hv', hsel]

/-- Witness for C2: a document with a form but no anti-forgery input makes
the run end token-missing with only the GET issued. -/
theorem token_missing_fails_without_post_witness :
    (upload_file "a.rs" "once" none (some "x")
      [⟨"form", [("action", "/")]⟩, ⟨"input", [("name", "title")]⟩] "u").outcome =
      UploadEnd.panicTokenMissing ∧
    (upload_file "a.rs" "once" none (some "x")
      [⟨"form", [("action", "/")]⟩, ⟨"input", [("name", "title")]⟩] "u").requests =
      [NetReq.get BASE_URL] :=
  token_missing_fails_without_post "a.rs" "once" none "x"
    [⟨"form", [("action", "/")]⟩, ⟨"input", [("name", "title")]⟩] "u"
    (by decide) (by decide)

/-- C8: with no explicit language and a basename the classifier rejects, a
run that reaches the POST submits the form with the generic code meta tag
_code as the lexer field (shown with the full form, in source field order). -/
theorem fallback_lexer_is_code
    (file time c tok finalUrl b : String) (doc : List Element)
    (hb : fileName file = some b)
    (hcls : map_filename_to_lang b = none)
    (hv : SUPPORTED_EXPIRE.contains time = true)
    (htok : selectCsrfValue doc = some tok) :
    (upload_file file time none (some c) doc finalUrl).outcome =
      UploadEnd.success
        [("csrfmiddlewaretoken", tok), ("content", c),
         ("expires", expiresToken time), ("lexer", "_code"), ("title", "")] := by
  have hv' : time ∈ SUPPORTED_EXPIRE := by simpa using hv
  simp [upload_file, hv', htok, hb, hcls]

/-- Witness for C8: uploading README (classifier yields nothing) posts
lexer equal to _code. -/
theorem fallback_lexer_is_code_witness :
    (upload_file "README" "once" none (some "hello")
      [⟨"input", [("name", "csrfmiddlewaretoken"), ("value", "T")]⟩] "u").outcome =
      UploadEnd.success
        [("csrfmiddlewaretoken", "T"), ("content", "hello"),
         ("expires", expiresToken "once"), ("lexer", "_code"), ("title", "")] :=
  fallback_lexer_is_code "README" "once" "hello" "T" "u" "README"
    [⟨"input", [("name", "csrfmiddlewaretoken"), ("value", "T")]⟩]
    (by decide) (by decide) (by decide) (by decide)

/-- C3: whenever the lowercased filename contains the substring nginx, the
classifier returns the nginx tag, whatever the extension would have given
(the substring arm precedes the extension lookup; the only exact special case
containing nginx is nginx.conf, which also yields nginx). -/
theorem nginx_substring_takes_precedence (f : String)
    (h : strContains (toLowerStr f) "nginx" = true) :
    map_filename_to_lang f = some "nginx" := by
  have hs : special_cases (toLowerStr f) = some "nginx" := by
    unfold special_cases
    by_cases h1 : toLowerStr f = "dockerfile"
    · rw [h1] at h; exact absurd h (by decide)
    by_cases h2 : toLowerStr f = "makefile"
    · rw [h2] at h; exact absurd h (by decide)
    by_cases h3 : toLowerStr f = "cmakelists.txt"
    · rw [h3] at h; exact absurd h (by decide)
    by_cases h4 : toLowerStr f = "nginx.conf"
    · simp [h1, h2, h3, h4]
    · simp [h1, h2, h3, h4, h]
  simp [map_filename_to_lang, hs]

/-- Witness for C3: my_nginx_service.yaml contains nginx and is classified
nginx even though yaml is in the extension table. -/
theorem nginx_substring_takes_precedence_witness :
    strContains (toLowerStr "my_nginx_service.yaml") "nginx" = true ∧
    map_filename_to_lang "my_nginx_service.yaml" = some "nginx" :=
  ⟨by decide, nginx_substring_takes_precedence "my_nginx_service.yaml" (by decide)⟩

/-- C6 counterexample: CMakeLists.txt ends in the extension txt, which the
table maps to the plain-text tag, yet the classifier returns cmake (the exact
special case fires first) - so the claim as stated fails. -/
theorem ext_table_not_always_used :
    extractExt (toLowerStr "CMakeLists.txt") = some "txt" ∧
    extTable "txt" = some "_text" ∧
    map_filename_to_lang "CMakeLists.txt" ≠ some "_text" := by decide

/-- C6 amended: for a filename on which the special-case step (exact names
and the nginx substring) yields nothing, the classifier returns exactly the
table's tag for its extension; matching is case-insensitive because both the
special cases and the extension are read off the lowercased name. -/
theorem ext_table_lookup_when_no_special_case (f e t : String)
    (hs : special_cases (toLowerStr f) = none)
    (he : extractExt (toLowerStr f) = some e)
    (ht : extTable e = some t) :
    map_filename_to_lang f = some t := by
  simp [map_filename_to_lang, hs, he, ht]

/-- Witness for C6: Main.RS is classified rust, the same answer as main.rs. -/
theorem ext_table_lookup_when_no_special_case_witness :
    map_filename_to_lang "Main.RS" = some "rust" ∧
    map_filename_to_lang "main.rs" = some "rust" :=
  ⟨ext_table_lookup_when_no_special_case "Main.RS" "rs" "rust"
     (by decide) (by decide) (by decide),
   ext_table_lookup_when_no_special_case "main.rs" "rs" "rust"
     (by decide) (by decide) (by decide)⟩

/-- C7 counterexample: makefile has no dot at all (the regex captures no
extension), yet the classifier returns make rather than none - so the claim
as stated fails on special-case names. -/
theorem no_dot_not_always_none :
    extractExt (toLowerStr "makefile") = none ∧
    map_filename_to_lang "makefile" = some "make" := by decide

/-- C7 amended: for a filename on which the special-case step yields nothing,
the classifier returns none whenever the regex captures no extension (no dot,
bare trailing dot, or an invalid suffix), and likewise whenever the captured
final suffix is absent from the table; only that final suffix is consulted. -/
theorem none_without_table_match (f : String)
    (hs : special_cases (toLowerStr f) = none) :
    (extractExt (toLowerStr f) = none → map_filename_to_lang f = none) ∧
    (∀ e, extractExt (toLowerStr f) = some e → extTable e = none →
      map_filename_to_lang f = none) := by
  constructor
  · intro he
    simp [map_filename_to_lang, hs, he]
  · intro e he ht
    simp [map_filename_to_lang, hs, he, ht]

/-- Witness for C7: archive.tar.gz (final suffix gz, not in the table) and
README (no dot) are both classified none. -/
theorem none_without_table_match_witness :
    map_filename_to_lang "archive.tar.gz" = none ∧
    map_filename_to_lang "README" = none :=
  ⟨(none_without_table_match "archive.tar.gz" (by decide)).2 "gz" (by decide) (by decide),
   (none_without_table_match "README" (by decide)).1 (by decide)⟩

/-- C9: a filename whose captured final extension is in, and on which the
special-case step (exact names and the nginx substring) yields nothing, is
classified cmake - config.h.in is classified by its final in suffix, not by
its h component. -/
theorem in_extension_maps_to_cmake (f : String)
    (hs : special_cases (toLowerStr f) = none)
    (he : extractExt (toLowerStr f) = some "in") :
    map_filename_to_lang f = some "cmake" := by
  simp [map_filename_to_lang, hs, he]
  decide

/-- Witness for C9: config.h.in is classified cmake. -/
theorem in_extension_maps_to_cmake_witness :
    map_filename_to_lang "config.h.in" = some "cmake" :=
  in_extension_maps_to_cmake "config.h.in" (by decide) (by decide)
